import Mathlib

/-!
Shallow embedding of the WorkMotivation earnings calculator (the current
script revision: grace period, fixed semi-monthly base salary, statutory
deductions, weekend entry editing, auto-recording).

Money and hours are modelled as rationals.  JavaScript Date values are
modelled by a civil calendar date (year, month 1..12, day); a date built by
the script with the zero-based constructor month m corresponds here to
month m+1.  The ISO key a Date is stored under is modelled as the civil
date itself.
-/

namespace WorkMotivation

/-! ## Compensation constants (script header) -/

def monthlySalary : ℚ := 28200

def halfSalary : ℚ := monthlySalary / 2

def workingDaysPerMonth : ℚ := 26

def hoursPerDay : ℚ := 8

def hourlyRate : ℚ := monthlySalary / workingDaysPerMonth / hoursPerDay

def nightDiffRate : ℚ := 18 / 100

def overtimeMultiplier : ℚ := 125 / 100

def deMinimisMonthly : ℚ := 280

def annualSalary : ℚ := monthlySalary * 12

def annualTaxExcess : ℚ := max (annualSalary - 250000) 0

def annualTax : ℚ := annualTaxExcess * (15 / 100)

def semiMonthlyTax : ℚ := annualTax / 24

def monthlySSS : ℚ := monthlySalary * (5 / 100)

def semiMonthlySSS : ℚ := monthlySSS / 2

def monthlyPhilHealthEmployee : ℚ := min (max (monthlySalary * (25 / 1000)) 250) 1250

def semiMonthlyPhilHealth : ℚ := monthlyPhilHealthEmployee / 2

def monthlyPagIbig : ℚ := min (monthlySalary * (2 / 100)) 200

def semiMonthlyPagIbig : ℚ := monthlyPagIbig / 2

def semiMonthlyDeductions : ℚ :=
  semiMonthlyTax + semiMonthlySSS + semiMonthlyPhilHealth + semiMonthlyPagIbig

def paidShiftHours : ℚ := 9

def breakDurationHours : ℚ := 1

def gracePeriodMinutes : ℚ := 15

/-! ## Civil dates (model of JavaScript Date at day granularity) -/

/-- A calendar date; month is 1..12. -/
structure CivilDate where
  year : Int
  month : Nat
  day : Nat
deriving DecidableEq

def isLeapYear (y : Int) : Bool :=
  (y % 4 == 0 && y % 100 != 0) || (y % 400 == 0)

/-- Length of a calendar month; models the new Date(year, month + 1, 0)
    last-day-of-month idiom of the script. -/
def daysInMonth (y : Int) (m : Nat) : Nat :=
  if m = 2 then (if isLeapYear y then 29 else 28)
  else if m = 4 ∨ m = 6 ∨ m = 9 ∨ m = 11 then 30
  else 31

/-- Days since the Unix epoch (1970-01-01 maps to 0), standard civil
    calendar algorithm with floor division. -/
def rataDie (d : CivilDate) : Int :=
  let y : Int := if d.month ≤ 2 then d.year - 1 else d.year
  let era : Int := Int.fdiv y 400
  let yoe : Int := y - era * 400
  let doy : Int := Int.fdiv (153 * ((Int.ofNat d.month + 9) % 12) + 2) 5 +
    Int.ofNat d.day - 1
  let doe : Int := yoe * 365 + Int.fdiv yoe 4 - Int.fdiv yoe 100 + doy
  era * 146097 + doe - 719468

/-- Day of week in the JavaScript getDay convention: 0 = Sunday .. 6 = Saturday. -/
def dayOfWeek (d : CivilDate) : Int := (rataDie d + 4) % 7

/-- Weekend test used throughout the script: getDay is 0 or 6. -/
def isWeekend (d : CivilDate) : Bool := dayOfWeek d == 0 || dayOfWeek d == 6

/-- Weekend test on a raw rata die value, used by the weekday counting loop. -/
def isWeekendRd (r : Int) : Bool := (r + 4) % 7 == 0 || (r + 4) % 7 == 6

/-- getWeekdaysBetween: counts Monday..Friday dates in the inclusive range;
    the day-by-day loop of the script is modelled as a count over the
    corresponding rata die values. -/
def getWeekdaysBetween (s e : CivilDate) : Nat :=
  (List.range (rataDie e + 1 - rataDie s).toNat).countP
    (fun i => !isWeekendRd (rataDie s + Int.ofNat i))

/-- The weekday count used by recordWeekdayEarnings and
    calculateDailyEarningsForDate: the date falls in period 1 (days 1..15)
    or period 2 (16..end of month) and the weekdays of that period are
    counted. -/
def periodWeekdayCount (y : Int) (m : Nat) (dayOfMonth : Nat) : Nat :=
  if dayOfMonth ≤ 15 then getWeekdaysBetween ⟨y, m, 1⟩ ⟨y, m, 15⟩
  else getWeekdaysBetween ⟨y, m, 16⟩ ⟨y, m, daysInMonth y m⟩

/-- getPayPeriodDates: days 1..15 for period 1, 16..end of month otherwise. -/
def getPayPeriodDates (y : Int) (m : Nat) (period : Nat) : List CivilDate :=
  (List.range ((if period = 1 then 15 else daysInMonth y m) + 1 -
      (if period = 1 then 1 else 16))).map
    (fun i => ⟨y, m, (if period = 1 then 1 else 16) + i⟩)

/-! ## JavaScript string parsing primitives -/

/-- Digits of the leading digit run, as in parseInt radix 10: the value of
    the longest digit prefix, or none when the prefix is empty. -/
def natOfDigitPrefix (cs : List Char) : Option Nat :=
  if (cs.takeWhile Char.isDigit).isEmpty then none
  else some ((cs.takeWhile Char.isDigit).foldl (fun a c => a * 10 + (c.toNat - 48)) 0)

/-- parseInt(s, 10) on a character list: skip leading whitespace, optional
    sign, then the leading digit run; none models NaN. -/
def jsParseIntChars (cs : List Char) : Option Int :=
  match cs.dropWhile Char.isWhitespace with
  | '-' :: rest => (natOfDigitPrefix rest).map (fun n => -(Int.ofNat n))
  | '+' :: rest => (natOfDigitPrefix rest).map Int.ofNat
  | other => (natOfDigitPrefix other).map Int.ofNat

def jsParseInt (s : String) : Option Int := jsParseIntChars s.data

/-- Value of a digit run read as the fractional part after a decimal point. -/
def fracOfDigits (cs : List Char) : ℚ :=
  (cs.foldl (fun a c => a * 10 + (c.toNat - 48)) 0 : ℚ) / (10 ^ cs.length : ℚ)

/-- parseFloat: skip whitespace, optional sign, integer digits, optional
    point and fraction digits; none models NaN (no digit at all).
    Exponent notation is not modelled; the inputs of interest are plain
    decimal numbers. -/
def jsParseFloatCore (cs : List Char) : Option ℚ :=
    let intDigits := cs.takeWhile Char.isDigit
    let afterInt := cs.dropWhile Char.isDigit
    match afterInt with
    | '.' :: r2 =>
      let fracDigits := r2.takeWhile Char.isDigit
      if intDigits.isEmpty && fracDigits.isEmpty then none
      else some ((intDigits.foldl (fun a c => a * 10 + (c.toNat - 48)) 0 : ℚ) +
        fracOfDigits fracDigits)
    | _ =>
      if intDigits.isEmpty then none
      else some (intDigits.foldl (fun a c => a * 10 + (c.toNat - 48)) 0 : ℚ)

def jsParseFloat (s : String) : Option ℚ :=
  match s.data.dropWhile Char.isWhitespace with
  | '-' :: rest => (jsParseFloatCore rest).map Neg.neg
  | '+' :: rest => jsParseFloatCore rest
  | cs => jsParseFloatCore cs

/-- Model of s.split with separator colon, on the character list of s. -/
def splitColon : List Char → List Char → List (List Char)
  | [], acc => [acc.reverse]
  | c :: cs, acc =>
    if c = ':' then acc.reverse :: splitColon cs [] else splitColon cs (c :: acc)

/-- The regular expression of the weekend entry prompt: one or two digits,
    a colon, exactly two digits, anchored at both ends. -/
def matchesHHMM (s : String) : Bool :=
  match s.data with
  | [a, b, c, d] => a.isDigit && b == ':' && c.isDigit && d.isDigit
  | [a, b, c, d, e] => a.isDigit && b.isDigit && c == ':' && d.isDigit && e.isDigit
  | _ => false

/-! ## Night differential overlap (calculateNightHours) -/

/-- The minute arithmetic of calculateNightHours, as a function of the shift
    start minute s and end minute e.  Mirrors the source line by line:
    the first summand is the overlap with 22:00..24:00 on the start day,
    the branch on e over 1440 distinguishes shifts crossing midnight, and
    the early-morning overlap with 00:00..06:00 is added in each branch. -/
def nightMinutesOf (s e : ℚ) : ℚ :=
  max 0 (min (min e 1440) 1440 - max s 1320) +
    (if 1440 < e then
      max 0 (min (e - 1440) 360 - 0) +
        (if s < 360 then min 360 (min e 1440) - s else 0)
    else
      if s < 360 then max 0 (min e 360 - s) else 0)

/-- Start time parsing step of calculateNightHours: split on the colon and
    parseInt the first two parts; none models the isNaN early return
    (including a missing minute part, where parseInt receives undefined). -/
def parseStartTime (startTime : String) : Option (Int × Int) :=
  match ((splitColon startTime.data [])[0]?).bind jsParseIntChars,
      ((splitColon startTime.data [])[1]?).bind jsParseIntChars with
  | some sH, some sM => some (sH, sM)
  | _, _ => none

/-- calculateNightHours: hours of the shift inside the 22:00..06:00 night
    window, 0 when the start time fails to parse. -/
def calculateNightHours (hours : ℚ) (startTime : String) : ℚ :=
  match parseStartTime startTime with
  | none => 0
  | some p =>
    nightMinutesOf ((p.1 : ℚ) * 60 + (p.2 : ℚ))
      ((p.1 : ℚ) * 60 + (p.2 : ℚ) + hours * 60) / 60

/-- Rest-day base pay: first 8 hours at 130 percent, excess at 169 percent. -/
def weekendBasePay (hrs : ℚ) : ℚ :=
  hourlyRate * (13 / 10) * min hrs 8 + hourlyRate * (169 / 100) * max (hrs - 8) 0

/-- calculateWeekendEarnings: rest-day base pay for the worked hours plus
    night differential on the overlap with the night window. -/
def calculateWeekendEarnings (hours : ℚ) (startTime : String) : ℚ :=
  weekendBasePay hours + hourlyRate * nightDiffRate * calculateNightHours hours startTime

/-! ## Shift hour accounting

The formulas below appear verbatim in updateDisplay, recordWeekdayEarnings
and the End Shift click handler; they are shared here as the source repeats
them. -/

/-- Paid hours: elapsed hours minus the unpaid break, clamped at zero. -/
def paidHoursOf (elapsedHours : ℚ) : ℚ := max (elapsedHours - breakDurationHours) 0

/-- Scheduled paid hours plus the grace period, the overtime threshold. -/
def maxPaidHoursNoOT : ℚ := paidShiftHours + gracePeriodMinutes / 60

/-- Base hours: paid hours clamped at the overtime threshold. -/
def baseHrsOf (elapsedHours : ℚ) : ℚ := min (paidHoursOf elapsedHours) maxPaidHoursNoOT

/-- Overtime hours: paid hours beyond the overtime threshold. -/
def otHrsOf (elapsedHours : ℚ) : ℚ := max (paidHoursOf elapsedHours - maxPaidHoursNoOT) 0

/-- Night hours of a tracked shift: total worked hours capped at 8. -/
def nightHrsOf (elapsedHours : ℚ) : ℚ := min (baseHrsOf elapsedHours + otHrsOf elapsedHours) 8

/-- The total stored by recordWeekdayEarnings: fixed daily base pay
    (half salary spread over the weekdays of the period of the shift start
    date) plus night differential plus weekday overtime pay. -/
def recordWeekdayTotal (shiftStart : CivilDate) (elapsedHours : ℚ) : ℚ :=
  halfSalary / (periodWeekdayCount shiftStart.year shiftStart.month shiftStart.day : ℚ) +
    hourlyRate * nightDiffRate * nightHrsOf elapsedHours +
    hourlyRate * overtimeMultiplier * otHrsOf elapsedHours

/-- The total computed by the End Shift click handler: hourly base pay
    (rest-day tiers on weekends) plus night differential plus mid pay of
    zero plus overtime pay. -/
def endShiftTotal (shiftStart : CivilDate) (elapsedHours : ℚ) : ℚ :=
  (if isWeekend shiftStart then weekendBasePay (baseHrsOf elapsedHours)
    else hourlyRate * baseHrsOf elapsedHours) +
    hourlyRate * nightDiffRate * nightHrsOf elapsedHours + 0 +
    (if isWeekend shiftStart then hourlyRate * (169 / 100) * otHrsOf elapsedHours
      else hourlyRate * overtimeMultiplier * otHrsOf elapsedHours)

/-- The values computed by updateDisplay on each tick, in source order:
    paid hours worked, base hours, overtime hours, base earnings, night
    earnings, overtime earnings, total. -/
structure LiveBreakdown where
  paid : ℚ
  baseHours : ℚ
  overtimeHours : ℚ
  baseEarnings : ℚ
  nightEarnings : ℚ
  overtimeEarnings : ℚ
  total : ℚ

/-- updateDisplay earnings computation for an effective elapsed duration;
    mid and allowance earnings are the zero summands of the total. -/
def updateDisplayBreakdown (shiftStart : CivilDate) (effectiveElapsedHours : ℚ) :
    LiveBreakdown :=
  ⟨paidHoursOf effectiveElapsedHours,
    baseHrsOf effectiveElapsedHours,
    otHrsOf effectiveElapsedHours,
    (if isWeekend shiftStart then weekendBasePay (baseHrsOf effectiveElapsedHours)
      else hourlyRate * baseHrsOf effectiveElapsedHours),
    hourlyRate * nightDiffRate * nightHrsOf effectiveElapsedHours,
    (if isWeekend shiftStart then hourlyRate * (169 / 100) * otHrsOf effectiveElapsedHours
      else hourlyRate * overtimeMultiplier * otHrsOf effectiveElapsedHours),
    (if isWeekend shiftStart then weekendBasePay (baseHrsOf effectiveElapsedHours)
      else hourlyRate * baseHrsOf effectiveElapsedHours) +
      hourlyRate * nightDiffRate * nightHrsOf effectiveElapsedHours + 0 +
      (if isWeekend shiftStart then hourlyRate * (169 / 100) * otHrsOf effectiveElapsedHours
        else hourlyRate * overtimeMultiplier * otHrsOf effectiveElapsedHours) + 0⟩

/-! ## Period aggregation (calendar) -/

/-- Pointwise update of a persisted map, modelling assignment to the key. -/
def updateMap {α : Type} (f : CivilDate → Option α) (k : CivilDate) (v : α) :
    CivilDate → Option α :=
  fun q => if q = k then some v else f q

/-- Pointwise removal from a persisted map, modelling the delete statement. -/
def removeKey {α : Type} (f : CivilDate → Option α) (k : CivilDate) :
    CivilDate → Option α :=
  fun q => if q = k then none else f q

/-- calculateDailyEarningsForDate: weekend dates use the stored weekend
    entry (zero when absent); weekday dates use the recorded total when one
    exists and otherwise the projection of fixed daily base pay plus a full
    night differential. -/
def calculateDailyEarningsForDate (completed : CivilDate → Option ℚ)
    (weekendDetails : CivilDate → Option (ℚ × String)) (date : CivilDate) : ℚ :=
  if isWeekend date then
    match weekendDetails date with
    | none => 0
    | some entry => calculateWeekendEarnings entry.1 entry.2
  else
    match completed date with
    | some v => v
    | none =>
      halfSalary / (periodWeekdayCount date.year date.month date.day : ℚ) +
        hourlyRate * nightDiffRate * min paidShiftHours 8

/-- The net period total displayed by renderCalendar: daily earnings are
    accumulated over the period dates, the de minimis allowance is added to
    period 1 only, and the semi-monthly deductions are subtracted. -/
def renderPeriodNetTotal (completed : CivilDate → Option ℚ)
    (weekendDetails : CivilDate → Option (ℚ × String)) (y : Int) (m : Nat)
    (period : Nat) : ℚ :=
  (if period = 1 then
    ((getPayPeriodDates y m period).foldl
      (fun acc d => acc + calculateDailyEarningsForDate completed weekendDetails d) 0) +
      deMinimisMonthly
  else
    (getPayPeriodDates y m period).foldl
      (fun acc d => acc + calculateDailyEarningsForDate completed weekendDetails d) 0) -
    semiMonthlyDeductions

/-! ## Shift state machine (manual end, auto recording) -/

/-- Session state: the shiftEnded and autoRecorded flags and the persisted
    completedWeekdayEarnings map. -/
structure ShiftState where
  shiftEnded : Bool
  autoRecorded : Bool
  completed : CivilDate → Option ℚ

/-- recordWeekdayEarnings: weekends are skipped; otherwise the computed
    total is stored under the shift start date. -/
def recordWeekdayEarningsState (st : ShiftState) (shiftStart : CivilDate)
    (elapsedHours : ℚ) : ShiftState :=
  if isWeekend shiftStart then st
  else ⟨st.shiftEnded, st.autoRecorded,
    updateMap st.completed shiftStart (recordWeekdayTotal shiftStart elapsedHours)⟩

/-- autoRecordIfPastGrace; the returned flag marks that the recording step
    executed during this call. -/
def autoRecordIfPastGrace (st : ShiftState) (shiftStart : CivilDate)
    (elapsedHours : ℚ) : ShiftState × Bool :=
  if st.shiftEnded || st.autoRecorded then (st, false)
  else if isWeekend shiftStart then (st, false)
  else if maxPaidHoursNoOT ≤ paidHoursOf elapsedHours then
    (⟨(recordWeekdayEarningsState st shiftStart elapsedHours).shiftEnded, true,
      (recordWeekdayEarningsState st shiftStart elapsedHours).completed⟩, true)
  else (st, false)

/-- The discrete events that can touch the state within one shift instance:
    a display tick, the beforeunload hook, and an End Shift click, each at
    some elapsed duration. -/
inductive ShiftEvent where
  | tick (elapsedHours : ℚ)
  | unload (elapsedHours : ℚ)
  | endClick (elapsedHours : ℚ)

/-- One event step; the flag marks an execution of the automatic recording
    step (the End Shift recording is the separate explicit path). -/
def shiftStep (shiftStart : CivilDate) (st : ShiftState) :
    ShiftEvent → ShiftState × Bool
  | .tick e => autoRecordIfPastGrace st shiftStart e
  | .unload e =>
    if !st.shiftEnded && !st.autoRecorded then autoRecordIfPastGrace st shiftStart e
    else (st, false)
  | .endClick e =>
    if st.shiftEnded then (st, false)
    else if isWeekend shiftStart then (⟨true, st.autoRecorded, st.completed⟩, false)
    else (⟨true, st.autoRecorded,
      updateMap st.completed shiftStart (endShiftTotal shiftStart e)⟩, false)

/-- Runs a sequence of events, counting executions of the automatic
    recording step. -/
def runShift (shiftStart : CivilDate) : ShiftState → List ShiftEvent → ShiftState × Nat
  | st, [] => (st, 0)
  | st, ev :: evs =>
    ((runShift shiftStart (shiftStep shiftStart st ev).1 evs).1,
      (if (shiftStep shiftStart st ev).2 then 1 else 0) +
        (runShift shiftStart (shiftStep shiftStart st ev).1 evs).2)

/-! ## Weekend entry editing (calendar click handler) -/

/-- The user responses consumed by one weekend cell click: the confirm
    dialog choice when an entry already exists, and the two prompt
    responses (none models cancel). -/
structure WeekendPromptInput where
  confirmRemove : Bool
  hoursResp : Option String
  timeResp : Option String

/-- Validation tail of the weekend prompt flow, after the hours response
    has been parsed: NaN or non-positive hours, a cancelled time prompt or
    a time failing the pattern leave the map unchanged. -/
def weekendEditTail (m : CivilDate → Option (ℚ × String)) (d : CivilDate)
    (timeResp : Option String) (parsedHours : Option ℚ) :
    CivilDate → Option (ℚ × String) :=
  match parsedHours with
  | none => m
  | some h =>
    if h ≤ 0 then m
    else
      match timeResp with
      | none => m
      | some ts => if matchesHHMM ts then updateMap m d (h, ts) else m

/-- The shared prompt flow of the weekend click handler: cancel or invalid
    hours or invalid time leave the map unchanged, otherwise the parsed
    entry is stored. -/
def weekendEditFlow (m : CivilDate → Option (ℚ × String)) (d : CivilDate)
    (ui : WeekendPromptInput) : CivilDate → Option (ℚ × String) :=
  match ui.hoursResp with
  | none => m
  | some hs => weekendEditTail m d ui.timeResp (jsParseFloat hs)

/-- The weekend cell click handler: with an existing entry, confirm either
    removes it or leads into the edit flow; without one, the edit flow
    creates the entry. -/
def weekendClick (m : CivilDate → Option (ℚ × String)) (d : CivilDate)
    (ui : WeekendPromptInput) : CivilDate → Option (ℚ × String) :=
  match m d with
  | some _ => if ui.confirmRemove then removeKey m d else weekendEditFlow m d ui
  | none => weekendEditFlow m d ui

/-! ## Bounds on the night overlap arithmetic -/

theorem nightMinutesOf_nonneg (s e : ℚ) : 0 ≤ nightMinutesOf s e := by
  unfold nightMinutesOf
  simp only [min_def, max_def, sub_zero]
  split_ifs <;> linarith

theorem nightMinutesOf_le_len (s e : ℚ) (h39 : s ≤ 1439) (hse : s ≤ e) :
    nightMinutesOf s e ≤ e - s := by
  unfold nightMinutesOf
  simp only [min_def, max_def, sub_zero]
  split_ifs <;> linarith

set_option maxHeartbeats 1000000 in
theorem nightMinutesOf_le_480 (s e : ℚ) (h0 : 0 ≤ s) (h39 : s ≤ 1439) (hse : s ≤ e)
    (h24 : e ≤ s + 1440) : nightMinutesOf s e ≤ 480 := by
  unfold nightMinutesOf
  simp only [min_def, max_def, sub_zero]
  split_ifs <;> linarith

set_option maxHeartbeats 1000000 in
theorem nightMinutesOf_2200 (h : ℚ) (hh : 0 ≤ h) :
    nightMinutesOf 1320 (1320 + h * 60) = 60 * min h 8 := by
  unfold nightMinutesOf
  simp only [min_def, max_def, sub_zero]
  split_ifs <;> linarith

theorem parseStartTime_eq_none (st : String)
    (h : ((splitColon st.data [])[0]?).bind jsParseIntChars = none ∨
      ((splitColon st.data [])[1]?).bind jsParseIntChars = none) :
    parseStartTime st = none := by
  unfold parseStartTime
  rcases hA : ((splitColon st.data [])[0]?).bind jsParseIntChars with _ | a
  · rfl
  · rcases hB : ((splitColon st.data [])[1]?).bind jsParseIntChars with _ | b
    · rfl
    · rcases h with h | h
      · rw [hA] at h; cases h
      · rw [hB] at h; cases h

/-- Range of the start minute of a well-formed HH:MM time. -/
theorem startMinute_range (sH sM : Int) (h1 : 0 ≤ sH) (h2 : sH ≤ 23) (h3 : 0 ≤ sM)
    (h4 : sM ≤ 59) :
    0 ≤ (sH : ℚ) * 60 + (sM : ℚ) ∧ (sH : ℚ) * 60 + (sM : ℚ) ≤ 1439 := by
  have q1 : (0 : ℚ) ≤ (sH : ℚ) := by exact_mod_cast h1
  have q2 : (sH : ℚ) ≤ 23 := by exact_mod_cast h2
  have q3 : (0 : ℚ) ≤ (sM : ℚ) := by exact_mod_cast h3
  have q4 : (sM : ℚ) ≤ 59 := by exact_mod_cast h4
  constructor <;> linarith

/-! ## Claim theorems on the night overlap -/

/-- Claim C7 (confirmed): for every nonnegative number of hours, the night
    overlap of a shift starting at 22:00 is exactly the worked hours capped
    at 8. -/
theorem c7_night_hours_at_2200 (h : ℚ) (hh : 0 ≤ h) :
    calculateNightHours h "22:00" = min h 8 := by
  have hp : parseStartTime "22:00" = some (22, 0) := by decide
  simp only [calculateNightHours, hp]
  have hs : ((22 : ℤ) : ℚ) * 60 + ((0 : ℤ) : ℚ) = 1320 := by norm_num
  rw [hs, nightMinutesOf_2200 h hh]
  ring

/-- Witness for C7 at ten worked hours. -/
theorem c7_witness : (0 : ℚ) ≤ 10 ∧ calculateNightHours 10 "22:00" = min 10 8 :=
  ⟨by norm_num, c7_night_hours_at_2200 10 (by norm_num)⟩

/-- Claim C9 (confirmed): for every nonnegative number of hours and every
    start time parsing as a well-formed HH:MM time of day, the night
    overlap is nonnegative and never exceeds the worked hours. -/
theorem c9_night_hours_bounds (h : ℚ) (st : String) (sH sM : Int)
    (hp : parseStartTime st = some (sH, sM)) (h1 : 0 ≤ sH) (h2 : sH ≤ 23)
    (h3 : 0 ≤ sM) (h4 : sM ≤ 59) (hh : 0 ≤ h) :
    0 ≤ calculateNightHours h st ∧ calculateNightHours h st ≤ h := by
  obtain ⟨q0, q39⟩ := startMinute_range sH sM h1 h2 h3 h4
  simp only [calculateNightHours, hp]
  have hlen := nightMinutesOf_le_len ((sH : ℚ) * 60 + (sM : ℚ))
    ((sH : ℚ) * 60 + (sM : ℚ) + h * 60) q39 (by linarith)
  have hnn := nightMinutesOf_nonneg ((sH : ℚ) * 60 + (sM : ℚ))
    ((sH : ℚ) * 60 + (sM : ℚ) + h * 60)
  constructor <;> [positivity; linarith]

/-- Witness for C9 at five hours starting 08:00. -/
theorem c9_witness :
    parseStartTime "08:00" = some (8, 0) ∧ (0 : ℚ) ≤ calculateNightHours 5 "08:00" ∧
      calculateNightHours 5 "08:00" ≤ 5 :=
  ⟨by decide,
    c9_night_hours_bounds 5 "08:00" 8 0 (by decide) (by decide) (by decide)
      (by decide) (by decide) (by norm_num)⟩

/-- Counterexample to claim C1 as stated: a valid weekend entry of 25 hours
    starting at midnight yields 9 night hours, which exceeds the claimed cap
    of 8. -/
theorem c1_counterexample :
    matchesHHMM "00:00" = true ∧ (0 : ℚ) < 25 ∧ 8 < calculateNightHours 25 "00:00" := by
  refine ⟨by decide, by norm_num, ?_⟩
  have hp : parseStartTime "00:00" = some (0, 0) := by decide
  simp only [calculateNightHours, hp]
  norm_num [nightMinutesOf, min_def, max_def]

/-- Claim C1 (amended): for weekend entries of at most 24 hours with a
    well-formed HH:MM start time, the night hours feeding the night premium
    of calculateWeekendEarnings never exceed 8; entries longer than 24 hours
    can exceed that cap. -/
theorem c1_night_hours_cap_amended (h : ℚ) (st : String) (sH sM : Int)
    (hp : parseStartTime st = some (sH, sM)) (h1 : 0 ≤ sH) (h2 : sH ≤ 23)
    (h3 : 0 ≤ sM) (h4 : sM ≤ 59) (hh : 0 < h) (h24 : h ≤ 24) :
    calculateNightHours h st ≤ 8 ∧
      calculateWeekendEarnings h st ≤
        weekendBasePay h + hourlyRate * nightDiffRate * 8 := by
  obtain ⟨q0, q39⟩ := startMinute_range sH sM h1 h2 h3 h4
  have hcap : calculateNightHours h st ≤ 8 := by
    simp only [calculateNightHours, hp]
    have h480 := nightMinutesOf_le_480 ((sH : ℚ) * 60 + (sM : ℚ))
      ((sH : ℚ) * 60 + (sM : ℚ) + h * 60) q0 q39 (by linarith) (by linarith)
    linarith
  refine ⟨hcap, ?_⟩
  unfold calculateWeekendEarnings
  have hr : 0 ≤ hourlyRate * nightDiffRate := by
    norm_num [hourlyRate, nightDiffRate, monthlySalary, workingDaysPerMonth, hoursPerDay]
  nlinarith [hcap, hr]

/-- Witness for the amended C1 at eight hours starting 22:00. -/
theorem c1_witness :
    calculateNightHours 8 "22:00" ≤ 8 ∧
      calculateWeekendEarnings 8 "22:00" ≤
        weekendBasePay 8 + hourlyRate * nightDiffRate * 8 :=
  c1_night_hours_cap_amended 8 "22:00" 22 0 (by decide) (by decide) (by decide)
    (by decide) (by decide) (by norm_num) (by norm_num)

/-- Claim C10 (confirmed): when the hour or the minute component of the
    start time fails to parse as an integer, the night overlap is zero and
    the weekend earnings reduce to the rest-day base pay with no night
    premium. -/
theorem c10_malformed_time_zero_night (hours : ℚ) (st : String)
    (h : ((splitColon st.data [])[0]?).bind jsParseIntChars = none ∨
      ((splitColon st.data [])[1]?).bind jsParseIntChars = none) :
    calculateNightHours hours st = 0 ∧
      calculateWeekendEarnings hours st = weekendBasePay hours := by
  have hp := parseStartTime_eq_none st h
  constructor
  · simp [calculateNightHours, hp]
  · simp [calculateWeekendEarnings, calculateNightHours, hp]

/-- Witness for C10 on a start time with a non-numeric hour component. -/
theorem c10_witness :
    calculateNightHours 5 "xx:10" = 0 ∧
      calculateWeekendEarnings 5 "xx:10" = weekendBasePay 5 :=
  c10_malformed_time_zero_night 5 "xx:10" (Or.inl (by decide))

/-! ## Claims on recording, display and aggregation -/

/-- Counterexample to claim C2 as stated: for the Monday shift of
    2025-09-01 with a full elapsed duration of 10.25 hours, the total the
    auto-finalization path records differs from the total the End Shift
    action records. -/
theorem c2_counterexample :
    recordWeekdayTotal ⟨2025, 9, 1⟩ (41 / 4) ≠ endShiftTotal ⟨2025, 9, 1⟩ (41 / 4) := by
  have h1 : periodWeekdayCount 2025 9 1 = 11 := by decide
  have h2 : isWeekend ⟨2025, 9, 1⟩ = false := by decide
  simp only [recordWeekdayTotal, endShiftTotal, h1, h2, Bool.false_eq_true, if_false]
  norm_num [nightHrsOf, baseHrsOf, otHrsOf, paidHoursOf, maxPaidHoursNoOT,
    paidShiftHours, gracePeriodMinutes, breakDurationHours, halfSalary,
    monthlySalary, hourlyRate, workingDaysPerMonth, hoursPerDay, nightDiffRate,
    overtimeMultiplier, min_def, max_def]

/-- Claim C2 (amended): for every weekday shift start and elapsed duration,
    the auto-finalization total and the End Shift total share the night and
    overtime components and differ exactly by the difference of their base
    components, the fixed daily base versus the hourly base pay. -/
theorem c2_record_vs_endshift_amended (start : CivilDate) (e : ℚ)
    (hw : isWeekend start = false) :
    recordWeekdayTotal start e - endShiftTotal start e =
      halfSalary / (periodWeekdayCount start.year start.month start.day : ℚ) -
        hourlyRate * baseHrsOf e := by
  simp only [recordWeekdayTotal, endShiftTotal, hw, Bool.false_eq_true, if_false]
  ring

/-- Witness for the amended C2 at the Monday shift of 2025-09-01. -/
theorem c2_witness :
    isWeekend ⟨2025, 9, 1⟩ = false ∧
      recordWeekdayTotal ⟨2025, 9, 1⟩ (41 / 4) - endShiftTotal ⟨2025, 9, 1⟩ (41 / 4) =
        halfSalary / (periodWeekdayCount 2025 9 1 : ℚ) - hourlyRate * baseHrsOf (41 / 4) :=
  ⟨by decide, c2_record_vs_endshift_amended ⟨2025, 9, 1⟩ (41 / 4) (by decide)⟩

/-- Claim C5 (confirmed): on every tick the base hours are the paid hours
    clamped at the scheduled paid hours plus grace period, the overtime
    hours are the excess beyond it, overtime is zero at exactly nine paid
    hours, and overtime stays zero up to nine hours and fifteen minutes. -/
theorem c5_base_overtime_split (start : CivilDate) (e : ℚ) :
    (updateDisplayBreakdown start e).baseHours =
      min (updateDisplayBreakdown start e).paid
        (paidShiftHours + gracePeriodMinutes / 60) ∧
    (updateDisplayBreakdown start e).overtimeHours =
      max ((updateDisplayBreakdown start e).paid -
        (paidShiftHours + gracePeriodMinutes / 60)) 0 ∧
    ((updateDisplayBreakdown start e).paid = 9 →
      (updateDisplayBreakdown start e).overtimeHours = 0) ∧
    ((updateDisplayBreakdown start e).paid ≤ 9 + 15 / 60 →
      (updateDisplayBreakdown start e).overtimeHours = 0) := by
  have hz : ∀ hp : paidHoursOf e ≤ 9 + 15 / 60, otHrsOf e = 0 := by
    intro hp
    have ht : paidHoursOf e - maxPaidHoursNoOT ≤ 0 := by
      unfold maxPaidHoursNoOT paidShiftHours gracePeriodMinutes
      linarith
    unfold otHrsOf
    rw [max_eq_right ht]
  refine ⟨rfl, rfl, ?_, ?_⟩
  · intro hp
    have hp9 : paidHoursOf e = 9 := hp
    exact hz (by rw [hp9]; norm_num)
  · intro hp
    exact hz hp

/-- Witness for C5 at ten elapsed hours, nine paid hours. -/
theorem c5_witness :
    (updateDisplayBreakdown ⟨2025, 9, 1⟩ 10).paid = 9 ∧
      (updateDisplayBreakdown ⟨2025, 9, 1⟩ 10).overtimeHours = 0 :=
  ⟨by norm_num [updateDisplayBreakdown, paidHoursOf, breakDurationHours],
    (c5_base_overtime_split ⟨2025, 9, 1⟩ 10).2.2.1
      (by norm_num [updateDisplayBreakdown, paidHoursOf, breakDurationHours])⟩

/-- Claim C3 (confirmed): a weekday date of the period view uses the
    recorded total when one exists and the projection otherwise, and
    recording a weekday total changes the value of that date only. -/
theorem c3_period_view_recorded_or_projection (completed : CivilDate → Option ℚ)
    (wd : CivilDate → Option (ℚ × String)) (d : CivilDate)
    (hwd : isWeekend d = false) :
    (∀ v, completed d = some v → calculateDailyEarningsForDate completed wd d = v) ∧
    (completed d = none → calculateDailyEarningsForDate completed wd d =
      halfSalary / (periodWeekdayCount d.year d.month d.day : ℚ) +
        hourlyRate * nightDiffRate * min paidShiftHours 8) ∧
    (∀ v, calculateDailyEarningsForDate (updateMap completed d v) wd d = v) ∧
    (∀ v dd, dd ≠ d → calculateDailyEarningsForDate (updateMap completed d v) wd dd =
      calculateDailyEarningsForDate completed wd dd) := by
  refine ⟨?_, ?_, ?_, ?_⟩
  · intro v hv
    simp [calculateDailyEarningsForDate, hwd, hv]
  · intro hv
    simp [calculateDailyEarningsForDate, hwd, hv]
  · intro v
    simp [calculateDailyEarningsForDate, hwd, updateMap]
  · intro v dd hne
    simp [calculateDailyEarningsForDate, updateMap, hne]

/-- Witness for C3: recording 100 for Monday 2025-09-01 makes the view
    return 100 there and leaves Tuesday 2025-09-02 at its projection. -/
theorem c3_witness :
    isWeekend (⟨2025, 9, 1⟩ : CivilDate) = false ∧
      calculateDailyEarningsForDate
        (updateMap (fun _ => none) ⟨2025, 9, 1⟩ 100) (fun _ => none) ⟨2025, 9, 1⟩ = 100 ∧
      calculateDailyEarningsForDate
        (updateMap (fun _ => none) ⟨2025, 9, 1⟩ 100) (fun _ => none) ⟨2025, 9, 2⟩ =
        calculateDailyEarningsForDate (fun _ => none) (fun _ => none) ⟨2025, 9, 2⟩ :=
  ⟨by decide,
    (c3_period_view_recorded_or_projection (fun _ => none) (fun _ => none)
      ⟨2025, 9, 1⟩ (by decide)).2.2.1 100,
    (c3_period_view_recorded_or_projection (fun _ => none) (fun _ => none)
      ⟨2025, 9, 1⟩ (by decide)).2.2.2 100 ⟨2025, 9, 2⟩ (by decide)⟩

theorem foldl_add_map (f : CivilDate → ℚ) (l : List CivilDate) (a : ℚ) :
    l.foldl (fun acc d => acc + f d) a = a + (l.map f).sum := by
  induction l generalizing a with
  | nil => simp
  | cons x xs ih => simp [ih, add_assoc]

/-- Claim C4 (confirmed): the displayed period net total is the sum of the
    per-day values over the period dates, plus the full monthly de minimis
    allowance exactly for period 1, minus the semi-monthly deductions
    constant spelled out from the statutory formulas. -/
theorem c4_period_net_total (completed : CivilDate → Option ℚ)
    (wd : CivilDate → Option (ℚ × String)) (y : Int) (m : Nat) (period : Nat) :
    renderPeriodNetTotal completed wd y m period =
      ((getPayPeriodDates y m period).map
        (calculateDailyEarningsForDate completed wd)).sum +
      (if period = 1 then deMinimisMonthly else 0) -
      (max ((28200 : ℚ) * 12 - 250000) 0 * (15 / 100) / 24 +
        (28200 : ℚ) * (5 / 100) / 2 +
        min (max ((28200 : ℚ) * (25 / 1000)) 250) 1250 / 2 +
        min ((28200 : ℚ) * (2 / 100)) 200 / 2) := by
  have hd : semiMonthlyDeductions =
      max ((28200 : ℚ) * 12 - 250000) 0 * (15 / 100) / 24 +
        (28200 : ℚ) * (5 / 100) / 2 +
        min (max ((28200 : ℚ) * (25 / 1000)) 250) 1250 / 2 +
        min ((28200 : ℚ) * (2 / 100)) 200 / 2 := by
    norm_num [semiMonthlyDeductions, semiMonthlyTax, annualTax, annualTaxExcess,
      annualSalary, monthlySalary, semiMonthlySSS, monthlySSS, semiMonthlyPhilHealth,
      monthlyPhilHealthEmployee, semiMonthlyPagIbig, monthlyPagIbig, min_def, max_def]
  unfold renderPeriodNetTotal
  rw [hd]
  split_ifs <;> rw [foldl_add_map] <;> ring

/-! ## Claim C6: the automatic recording step -/

set_option linter.unnecessarySeqFocus false in
theorem shiftStep_from_auto (start : CivilDate) (st : ShiftState) (ev : ShiftEvent)
    (h : st.autoRecorded = true) :
    (shiftStep start st ev).1.autoRecorded = true ∧ (shiftStep start st ev).2 = false := by
  cases ev <;> simp [shiftStep, autoRecordIfPastGrace, h] <;> split_ifs <;> simp [h]

theorem shiftStep_records_sets (start : CivilDate) (st : ShiftState) (ev : ShiftEvent)
    (h : (shiftStep start st ev).2 = true) :
    (shiftStep start st ev).1.autoRecorded = true := by
  cases ev <;> simp only [shiftStep, autoRecordIfPastGrace] at h ⊢ <;>
    split_ifs at h ⊢ <;> simp_all

theorem shiftStep_weekend (start : CivilDate) (st : ShiftState) (ev : ShiftEvent)
    (hw : isWeekend start = true) : (shiftStep start st ev).2 = false := by
  cases ev <;> simp only [shiftStep, autoRecordIfPastGrace, hw] <;>
    split_ifs <;> rfl

theorem runShift_count_le (start : CivilDate) (evs : List ShiftEvent) :
    ∀ st : ShiftState,
      (runShift start st evs).2 ≤ if st.autoRecorded then 0 else 1 := by
  induction evs with
  | nil =>
    intro st
    simp only [runShift]
    split_ifs <;> omega
  | cons ev evs ih =>
    intro st
    simp only [runShift]
    have htail := ih (shiftStep start st ev).1
    by_cases ha : st.autoRecorded = true
    · have hfa := shiftStep_from_auto start st ev ha
      rw [hfa.1] at htail
      rw [if_pos rfl] at htail
      rw [hfa.2, if_neg Bool.false_ne_true, if_pos ha]
      omega
    · rw [if_neg ha]
      cases hb : (shiftStep start st ev).2 with
      | false =>
        rw [if_neg Bool.false_ne_true]
        have hone : (if (shiftStep start st ev).1.autoRecorded = true then 0 else 1) ≤ 1 := by
          split_ifs <;> omega
        omega
      | true =>
        rw [shiftStep_records_sets start st ev hb] at htail
        rw [if_pos rfl] at htail
        rw [if_pos rfl]
        omega

theorem runShift_weekend_zero (start : CivilDate) (hw : isWeekend start = true)
    (evs : List ShiftEvent) : ∀ st : ShiftState, (runShift start st evs).2 = 0 := by
  induction evs with
  | nil => intro st; rfl
  | cons ev evs ih =>
    intro st
    simp only [runShift, shiftStep_weekend start st ev hw, ih,
      if_neg Bool.false_ne_true, Nat.zero_add]

/-- Claim C6 (confirmed): across any sequence of ticks, unload attempts and
    End Shift clicks of one shift instance, the automatic recording step
    executes at most once, and never when the shift starts on a Saturday or
    a Sunday. -/
theorem c6_auto_finalize_once (start : CivilDate) (evs : List ShiftEvent)
    (st : ShiftState) :
    (runShift start st evs).2 ≤ 1 ∧
      (isWeekend start = true → (runShift start st evs).2 = 0) := by
  constructor
  · have h := runShift_count_le start evs st
    split_ifs at h <;> omega
  · intro hw
    exact runShift_weekend_zero start hw evs st

/-- Witness for C6 on the Saturday 2025-09-06 with several late ticks. -/
theorem c6_witness :
    isWeekend (⟨2025, 9, 6⟩ : CivilDate) = true ∧
      (runShift ⟨2025, 9, 6⟩ ⟨false, false, fun _ => none⟩
        [ShiftEvent.tick 11, ShiftEvent.tick 12, ShiftEvent.unload 12]).2 = 0 :=
  ⟨by decide,
    (c6_auto_finalize_once ⟨2025, 9, 6⟩
      [ShiftEvent.tick 11, ShiftEvent.tick 12, ShiftEvent.unload 12]
      ⟨false, false, fun _ => none⟩).2 (by decide)⟩

/-! ## Claim C8: rejection of invalid weekend input -/

theorem weekendEditTail_invalid (m : CivilDate → Option (ℚ × String)) (d : CivilDate)
    (timeResp : Option String) (parsed : Option ℚ)
    (h : parsed = none ∨ (∃ x, parsed = some x ∧ x ≤ 0) ∨ timeResp = none ∨
      (∃ t, timeResp = some t ∧ matchesHHMM t = false)) :
    weekendEditTail m d timeResp parsed = m := by
  rcases h with h | ⟨x, hx1, hx2⟩ | h | ⟨t, ht, hmt⟩
  · subst h; rfl
  · subst hx1
    show (if x ≤ 0 then m else _) = m
    rw [if_pos hx2]
  · subst h
    rcases parsed with _ | x
    · rfl
    · show (if x ≤ 0 then m else _) = m
      by_cases hx : x ≤ 0
      · rw [if_pos hx]
      · rw [if_neg hx]
  · subst ht
    rcases parsed with _ | x
    · rfl
    · show (if x ≤ 0 then m
        else if matchesHHMM t = true then updateMap m d (x, t) else m) = m
      by_cases hx : x ≤ 0
      · rw [if_pos hx]
      · rw [if_neg hx, if_neg (by rw [hmt]; exact Bool.false_ne_true)]

/-- Claim C8 (confirmed): a weekend entry edit attempt with a cancelled
    prompt, unparseable or non-positive hours, or a start time failing the
    HH:MM pattern leaves the weekend entry map exactly unchanged. -/
theorem c8_invalid_input_rejected (m : CivilDate → Option (ℚ × String))
    (d : CivilDate) (ui : WeekendPromptInput) (hrm : ui.confirmRemove = false)
    (hinv : ui.hoursResp = none ∨
      (∃ s, ui.hoursResp = some s ∧ jsParseFloat s = none) ∨
      (∃ s x, ui.hoursResp = some s ∧ jsParseFloat s = some x ∧ x ≤ 0) ∨
      ui.timeResp = none ∨
      (∃ t, ui.timeResp = some t ∧ matchesHHMM t = false)) :
    weekendClick m d ui = m := by
  have hflow : weekendEditFlow m d ui = m := by
    unfold weekendEditFlow
    rcases hh : ui.hoursResp with _ | s
    · rfl
    · show weekendEditTail m d ui.timeResp (jsParseFloat s) = m
      apply weekendEditTail_invalid
      rcases hinv with h | ⟨s2, hs2, hp2⟩ | ⟨s2, x2, hs2, hp2, hx2⟩ | h | ⟨t2, ht2, hm2⟩
      · rw [hh] at h; cases h
      · rw [hh] at hs2; cases hs2; exact Or.inl hp2
      · rw [hh] at hs2; cases hs2; exact Or.inr (Or.inl ⟨x2, hp2, hx2⟩)
      · exact Or.inr (Or.inr (Or.inl h))
      · exact Or.inr (Or.inr (Or.inr ⟨t2, ht2, hm2⟩))
  unfold weekendClick
  cases hmd : m d with
  | none => exact hflow
  | some e => simp [hrm, hflow]

/-- Witness for C8: unparseable hours leave an empty map unchanged. -/
theorem c8_witness :
    weekendClick (fun _ => none) ⟨2025, 9, 6⟩ ⟨false, some "abc", some "08:00"⟩ =
      (fun _ => none : CivilDate → Option (ℚ × String)) :=
  c8_invalid_input_rejected (fun _ => none) ⟨2025, 9, 6⟩
    ⟨false, some "abc", some "08:00"⟩ rfl
    (Or.inr (Or.inl ⟨"abc", rfl, by decide⟩))

end WorkMotivation
